import Mathlib

/-!
Verification of the adaptive load-generation engine of the `db-load`
repository. The definitions below are shallow embeddings of the Python
sources (`metrics.py`, `load_test.py`, `scenarios.py`): pure functions become
Lean functions, stateful methods become explicit state passing, wall-clock
readings (`time.time()`, `time.perf_counter()`) become explicit rational
parameters, and the cooperatively scheduled loops become functions over the
sequences of values they would observe at their suspension points. Python
float literals are modelled as exact rationals.
-/

/-! ## metrics.py: TimeWindow

`TimeWindow` keeps a list of event timestamps and lazily drops the ones that
have fallen out of a trailing window (`_trim` pops from the front while the
head is older than `now - window_seconds`). -/

structure TimeWindow where
  window_seconds : ℚ
  timestamps : List ℚ

/-- `TimeWindow._trim`: pop leading timestamps older than `now - window_seconds`.
The clock read `time.time()` inside `_trim` is the explicit argument `now`. -/
def TimeWindow.trim (tw : TimeWindow) (now : ℚ) : TimeWindow :=
  { tw with
    timestamps := tw.timestamps.dropWhile (fun t => decide (t < now - tw.window_seconds)) }

/-- `TimeWindow.add`: append the timestamp, then trim. `ts` is the caller's
clock value, `now` the (no earlier) clock value read inside `_trim`. -/
def TimeWindow.add (tw : TimeWindow) (ts now : ℚ) : TimeWindow :=
  TimeWindow.trim { tw with timestamps := tw.timestamps ++ [ts] } now

/-- `TimeWindow.rate`: trim (clock read `t1`), return `0.0` if nothing is left,
otherwise count the timestamps at or after `now - window_seconds` for a second,
no earlier, clock read `now = t2` and divide by the window length. Returns the
value together with the mutated window. -/
def TimeWindow.rate (tw : TimeWindow) (t1 t2 : ℚ) : ℚ × TimeWindow :=
  let tw2 := tw.trim t1
  if tw2.timestamps.isEmpty then (0, tw2)
  else
    (((tw2.timestamps.countP (fun t => decide (t2 - tw.window_seconds ≤ t)) : ℕ) : ℚ) /
        tw.window_seconds,
      tw2)

/-- One call against a `TimeWindow`: an `add` or a `rate` read, each carrying
the wall-clock values observed during the call. -/
inductive TWOp where
  | add (ts now : ℚ)
  | rate (t1 t2 : ℚ)

/-- The clock readings of one operation, in the order they are taken. -/
def TWOp.times : TWOp → List ℚ
  | .add ts now => [ts, now]
  | .rate t1 t2 => [t1, t2]

/-- All clock readings of a call sequence, in order. -/
def opsTimes : List TWOp → List ℚ
  | [] => []
  | op :: ops => op.times ++ opsTimes ops

/-- Run a sequence of calls against a window, collecting the values returned
by the `rate` calls. -/
def runTW : TimeWindow → List TWOp → TimeWindow × List ℚ
  | tw, [] => (tw, [])
  | tw, TWOp.add ts now :: ops => runTW (tw.add ts now) ops
  | tw, TWOp.rate t1 t2 :: ops =>
    let r := tw.rate t1 t2
    let rest := runTW r.2 ops
    (rest.1, r.1 :: rest.2)

/-- Reference behaviour following the spec's words, for comparison with
`runTW`: a rate read returns `count_of_timestamps_within_window /
window_seconds`, counting over every timestamp ever added, where "within
window" means not older than `window_seconds` before the time of the call. -/
def specRateOutputs (w : ℚ) (added : List ℚ) : List TWOp → List ℚ
  | [] => []
  | TWOp.add ts _ :: ops => specRateOutputs w (added ++ [ts]) ops
  | TWOp.rate _ t2 :: ops =>
    ((added.countP (fun t => decide (t2 - w ≤ t)) : ℕ) : ℚ) / w ::
      specRateOutputs w added ops

lemma countP_eq_zero_of_forall {p : ℚ → Bool} {l : List ℚ}
    (h : ∀ t ∈ l, p t = false) : l.countP p = 0 := by
  induction l with
  | nil => rfl
  | cons a l ih =>
    simp [List.countP_cons, h a (List.mem_cons_self a l),
      ih (fun t ht => h t (List.mem_cons_of_mem a ht))]

lemma runTW_eq_spec_aux (w : ℚ) :
    ∀ (ops : List TWOp) (dropped retained : List ℚ),
      List.Pairwise (· ≤ ·) (opsTimes ops) →
      (∀ t ∈ dropped, ∀ u ∈ opsTimes ops, t < u - w) →
      (runTW ⟨w, retained⟩ ops).2 = specRateOutputs w (dropped ++ retained) ops := by
  intro ops
  induction ops with
  | nil => intro dropped retained _ _; rfl
  | cons op ops ih =>
    intro dropped retained hmono hdrop
    cases op with
    | add ts now =>
      have hmono2 : List.Pairwise (· ≤ ·) (ts :: now :: opsTimes ops) := hmono
      rw [List.pairwise_cons] at hmono2
      obtain ⟨hts, hmono3⟩ := hmono2
      rw [List.pairwise_cons] at hmono3
      obtain ⟨hnow, hmono4⟩ := hmono3
      show (runTW (TimeWindow.add ⟨w, retained⟩ ts now) ops).2 = _
      have hadd : TimeWindow.add ⟨w, retained⟩ ts now =
          ⟨w, (retained ++ [ts]).dropWhile (fun t => decide (t < now - w))⟩ := rfl
      rw [hadd]
      set p : ℚ → Bool := fun t => decide (t < now - w) with hp
      have hsplit : (retained ++ [ts]).takeWhile p ++ (retained ++ [ts]).dropWhile p =
          retained ++ [ts] := List.takeWhile_append_dropWhile p (retained ++ [ts])
      have hdrop2 : ∀ t ∈ dropped ++ (retained ++ [ts]).takeWhile p,
          ∀ u ∈ opsTimes ops, t < u - w := by
        intro t ht u hu
        rcases List.mem_append.1 ht with h1 | h1
        · exact hdrop t h1 u (by
            show u ∈ opsTimes (TWOp.add ts now :: ops)
            simp only [opsTimes, TWOp.times]
            exact List.mem_append.2 (Or.inr hu))
        · have hpt : p t = true := List.mem_takeWhile_imp h1
          have h2 : t < now - w := by simpa [hp] using hpt
          have h3 : now ≤ u := hnow u hu
          linarith
      have := ih (dropped ++ (retained ++ [ts]).takeWhile p)
        ((retained ++ [ts]).dropWhile p) hmono4 hdrop2
      rw [this]
      show specRateOutputs w _ ops = specRateOutputs w ((dropped ++ retained) ++ [ts]) ops
      have harg : (dropped ++ (retained ++ [ts]).takeWhile p) ++
          (retained ++ [ts]).dropWhile p = (dropped ++ retained) ++ [ts] := by
        rw [List.append_assoc, hsplit, List.append_assoc]
      rw [harg]
    | rate t1 t2 =>
      have hmono2 : List.Pairwise (· ≤ ·) (t1 :: t2 :: opsTimes ops) := hmono
      rw [List.pairwise_cons] at hmono2
      obtain ⟨ht1, hmono3⟩ := hmono2
      rw [List.pairwise_cons] at hmono3
      obtain ⟨ht2, hmono4⟩ := hmono3
      have ht12 : t1 ≤ t2 := ht1 t2 (List.mem_cons_self t2 _)
      set p1 : ℚ → Bool := fun t => decide (t < t1 - w) with hp1
      set q : ℚ → Bool := fun t => decide (t2 - w ≤ t) with hq
      set d := retained.takeWhile p1 with hd
      set r2 := retained.dropWhile p1 with hr2
      have hsplit : d ++ r2 = retained := List.takeWhile_append_dropWhile p1 retained
      -- the timestamps dropped before this read are all out of the window
      have hdropped_old : ∀ t ∈ dropped, t < t2 - w := by
        intro t ht
        exact hdrop t ht t2 (by
          show t2 ∈ opsTimes (TWOp.rate t1 t2 :: ops)
          simp [opsTimes, TWOp.times])
      have hd_old : ∀ t ∈ d, t < t2 - w := by
        intro t ht
        have hpt : p1 t = true := List.mem_takeWhile_imp ht
        have h2 : t < t1 - w := by simpa [hp1] using hpt
        linarith
      -- the recorded value equals the count over the full history
      have hcount : (dropped ++ retained).countP q = r2.countP q := by
        rw [← hsplit, ← List.append_assoc, List.countP_append,
          countP_eq_zero_of_forall (p := q) (l := dropped ++ d) ?_, Nat.zero_add]
        intro t ht
        have h3 : t < t2 - w := by
          rcases List.mem_append.1 ht with h1 | h1
          · exact hdropped_old t h1
          · exact hd_old t h1
        simp only [hq, decide_eq_false_iff_not, not_le]
        exact h3
      have hrate : TimeWindow.rate ⟨w, retained⟩ t1 t2 =
          if r2.isEmpty then ((0 : ℚ), (⟨w, r2⟩ : TimeWindow))
          else (((r2.countP q : ℕ) : ℚ) / w, (⟨w, r2⟩ : TimeWindow)) := rfl
      have hdrop2 : ∀ t ∈ dropped ++ d, ∀ u ∈ opsTimes ops, t < u - w := by
        intro t ht u hu
        rcases List.mem_append.1 ht with h1 | h1
        · exact hdrop t h1 u (by
            show u ∈ opsTimes (TWOp.rate t1 t2 :: ops)
            simp only [opsTimes, TWOp.times]
            exact List.mem_append.2 (Or.inr hu))
        · have hpt : p1 t = true := List.mem_takeWhile_imp h1
          have h2 : t < t1 - w := by simpa [hp1] using hpt
          have h3 : t1 ≤ u := ht1 u (List.mem_cons_of_mem t2 hu)
          linarith
      have harg : (dropped ++ d) ++ r2 = dropped ++ retained := by
        rw [List.append_assoc, hsplit]
      have htail := ih (dropped ++ d) r2 hmono4 hdrop2
      rw [harg] at htail
      have hgoal : (runTW ⟨w, retained⟩ (TWOp.rate t1 t2 :: ops)).2 =
          (TimeWindow.rate ⟨w, retained⟩ t1 t2).1 ::
            (runTW (TimeWindow.rate ⟨w, retained⟩ t1 t2).2 ops).2 := rfl
      have hrhs : specRateOutputs w (dropped ++ retained) (TWOp.rate t1 t2 :: ops) =
          (((dropped ++ retained).countP q : ℕ) : ℚ) / w ::
            specRateOutputs w (dropped ++ retained) ops := rfl
      rw [hgoal, hrhs, hrate, hcount]
      by_cases hemp : r2.isEmpty
      · rw [if_pos hemp]
        have hnil : r2 = [] := List.isEmpty_iff.1 hemp
        rw [hnil] at htail ⊢
        simp only [List.countP_nil, Nat.cast_zero, zero_div]
        rw [htail]
      · rw [if_neg hemp]
        rw [htail]

/-- Claim C7: for every sequence of `TimeWindow.add` and `TimeWindow.rate`
calls whose clock readings are monotone, each `rate` call returns exactly
`count_of_timestamps_within_window / window_seconds` — counting over every
timestamp ever added, so it never counts (nor misses, because of the lazy
trimming) a timestamp older than `window_seconds` before the time of the
call, and returns `0` when no timestamp remains. -/
theorem timeWindow_rate_within_window (w : ℚ) (ops : List TWOp)
    (hmono : List.Pairwise (· ≤ ·) (opsTimes ops)) :
    (runTW ⟨w, []⟩ ops).2 = specRateOutputs w [] ops :=
  runTW_eq_spec_aux w ops [] []
    hmono (fun t ht => absurd ht (List.not_mem_nil t))

/-- Witness for C7 at a concrete call sequence: two adds inside the window,
one later add, with rate reads observing the trimming. -/
theorem timeWindow_rate_within_window_witness :
    (runTW ⟨10, []⟩
        [TWOp.add 1 1, TWOp.add 3 3, TWOp.rate 4 4,
          TWOp.add 20 20, TWOp.rate 21 21]).2 =
      specRateOutputs 10 []
        [TWOp.add 1 1, TWOp.add 3 3, TWOp.rate 4 4,
          TWOp.add 20 20, TWOp.rate 21 21] :=
  timeWindow_rate_within_window 10 _
    (by norm_num [opsTimes, TWOp.times, List.pairwise_cons])

/-! ## metrics.py: MetricsCollector

Thread-safe counters plus the sliding window above. The mutex, the
Prometheus histogram/counter/gauge objects and the unused `last_update_ts`
field are process-external I/O and are not part of the state modelled here;
`record_query` and `snapshot` are modelled as state transformers over the
remaining fields, with the clock reads passed explicitly. -/

structure MetricsCollector where
  success_count : ℕ
  error_count : ℕ
  qps_window : TimeWindow

/-- `MetricsCollector.record_query`: append the current time to the window
and increment the success or the error counter. (`REQUEST_LATENCY.observe`,
the labelled Prometheus counter and `QPS.set` touch only exporter state.) -/
def MetricsCollector.record_query (m : MetricsCollector) (now : ℚ) (ok : Bool) :
    MetricsCollector :=
  { m with
    qps_window := m.qps_window.add now now
    success_count := if ok then m.success_count + 1 else m.success_count
    error_count := if ok then m.error_count else m.error_count + 1 }

/-- The dictionary returned by `MetricsCollector.snapshot`. -/
structure MetricsSnapshot where
  success : ℚ
  error : ℚ
  qps : ℚ

/-- `MetricsCollector.snapshot`: read both counters and the current rolling
rate. The embedded `rate` call lazily trims the window, so the collector
state after the call is returned as well; `t1 t2` are the two clock reads
taken inside `rate`. -/
def MetricsCollector.snapshot (m : MetricsCollector) (t1 t2 : ℚ) :
    MetricsSnapshot × MetricsCollector :=
  let r := m.qps_window.rate t1 t2
  (⟨(m.success_count : ℚ), (m.error_count : ℚ), r.1⟩,
    { m with qps_window := r.2 })

/-- Claim C10: `snapshot` never modifies `success_count` or `error_count`
(it only lazily trims the time window), so two consecutive `snapshot` calls
with no intervening `record_query` return equal success and error fields. -/
theorem snapshot_preserves_counters (m : MetricsCollector) (t1 t2 t3 t4 : ℚ) :
    ((m.snapshot t1 t2).2.success_count = m.success_count ∧
      (m.snapshot t1 t2).2.error_count = m.error_count) ∧
    (((m.snapshot t1 t2).2.snapshot t3 t4).1.success = (m.snapshot t1 t2).1.success ∧
      ((m.snapshot t1 t2).2.snapshot t3 t4).1.error = (m.snapshot t1 t2).1.error) :=
  ⟨⟨rfl, rfl⟩, ⟨rfl, rfl⟩⟩

/-! ## load_test.py: QueryRunner

`QueryRunner.__call__` is the worker body handed to every scenario. Its
externally visible behaviour is the sequence of metric records and sleeps it
performs and whether it lets a `CancelledError` propagate; the database
connection itself is external I/O. -/

/-- One recorded/observable action of a `QueryRunner` invocation:
a `record_connect(_, ok)` call, a `record_query(_, ok, _)` call, or an
`asyncio.sleep(d)`. -/
inductive RunnerEvent where
  | connectRecord (ok : Bool)
  | queryRecord (ok : Bool)
  | sleepEv (d : ℚ)
deriving DecidableEq

/-- Outcome of awaiting one query inside `_execute_random_query`: the query
returns, raises a database error, or the worker task is cancelled at this
suspension point. -/
inductive QueryOutcome where
  | ok
  | fail
  | cancelled
deriving DecidableEq

/-- `QueryRunner._execute_random_query`, reduced to its record/propagate
behaviour: `ok` starts `True`; `except Exception` (which does NOT catch
`asyncio.CancelledError`, since Python 3.8 it is a `BaseException`) sets
`ok = False` on a database error only; the `finally` block calls
`record_query(_, ok, _)` unconditionally — also when the invocation was
cancelled, in which case the `CancelledError` then propagates.
Returns `(ok value recorded, whether CancelledError propagates)`. -/
def executeRandomQueryOutcome : QueryOutcome → Bool × Bool
  | QueryOutcome.ok => (true, false)
  | QueryOutcome.fail => (false, false)
  | QueryOutcome.cancelled => (true, true)

/-- The effect of one `_execute_random_query` call on the collector:
the `finally` block records with the current `ok` flag; the second component
says whether the call re-raises a cancellation. -/
def executeRandomQueryMetrics (m : MetricsCollector) (now : ℚ) (o : QueryOutcome) :
    MetricsCollector × Bool :=
  ((m.record_query now (executeRandomQueryOutcome o).1), (executeRandomQueryOutcome o).2)

/-- Claim C3: the claim says a cancelled invocation is recorded nowhere, and
the code violates it: cancelling the worker while it awaits the query inside
`_execute_random_query` still runs the `finally` block with `ok = True`
(because `except Exception` does not catch `CancelledError`), so
`record_query` increments the aggregator's success counter by one before the
cancellation propagates. Evaluated at a concrete collector. -/
theorem cancelled_query_records_success :
    (executeRandomQueryMetrics ⟨0, 0, ⟨10, []⟩⟩ 0 QueryOutcome.cancelled).1.success_count = 1 ∧
    (executeRandomQueryMetrics ⟨0, 0, ⟨10, []⟩⟩ 0 QueryOutcome.cancelled).1.error_count = 0 ∧
    (executeRandomQueryMetrics ⟨0, 0, ⟨10, []⟩⟩ 0 QueryOutcome.cancelled).2 = true :=
  ⟨rfl, rfl, rfl⟩

/-- The connect phase of `QueryRunner.__call__`: `for attempt in range(3)`;
a successful `asyncpg.connect` records `record_connect(_, ok=True)` and
breaks out (the subsequent `SET statement_timeout` is taken to succeed
whenever the connect does; its failure would rejoin the same retry loop);
a failed attempt (one whose `connect` raises one of the caught classes) sleeps
`0.5 * 2 ** attempt` and retries while attempts remain, and on the last
attempt records `record_connect(_, ok=False)` and returns from the worker.
`co attempt` says whether attempt number `attempt` connects; `remaining` is
the number of loop iterations still available (3 at the initial call), so
`remaining = 1` is the `attempt == max_retries - 1` case. Returns the event
trace and whether a connection was obtained. -/
def connectAttempts (co : ℕ → Bool) : ℕ → ℕ → List RunnerEvent × Bool
  | 0, _ => ([], false)
  | remaining + 1, attempt =>
    if co attempt then ([RunnerEvent.connectRecord true], true)
    else if remaining = 0 then ([RunnerEvent.connectRecord false], false)
    else
      let rest := connectAttempts co remaining (attempt + 1)
      (RunnerEvent.sleepEv ((1 / 2 : ℚ) * 2 ^ attempt) :: rest.1, rest.2)

/-- The query loop of `QueryRunner.__call__`: `for i in range(30)`, each
iteration awaiting `_execute_random_query` (which internally absorbs every
database error and records the outcome, so the `ConnectionError` break
branch of the loop is unreachable) and sleeping 50 ms every 5th iteration.
A cancellation inside the query is recorded by the `finally` block as a
success and then re-raised by the loop's `except asyncio.CancelledError`.
Returns the event trace and whether a cancellation propagated. -/
def queryLoop (qo : ℕ → QueryOutcome) : ℕ → ℕ → List RunnerEvent × Bool
  | _, 0 => ([], false)
  | i, remaining + 1 =>
    let r := executeRandomQueryOutcome (qo i)
    if r.2 then ([RunnerEvent.queryRecord r.1], true)
    else
      let breather := if i % 5 = 0 then [RunnerEvent.sleepEv (1 / 20 : ℚ)] else []
      let rest := queryLoop qo (i + 1) remaining
      (RunnerEvent.queryRecord r.1 :: (breather ++ rest.1), rest.2)

/-- `QueryRunner.__call__`: connect with up to `max_retries = 3` attempts;
on success run the 30-iteration query loop, on exhaustion return silently.
Returns the event trace and whether a `CancelledError` propagated. -/
def queryRunnerCall (co : ℕ → Bool) (qo : ℕ → QueryOutcome) :
    List RunnerEvent × Bool :=
  let c := connectAttempts co 3 0
  if c.2 then
    let q := queryLoop qo 0 30
    (c.1 ++ q.1, q.2)
  else (c.1, false)

/-- Recognizer for query-outcome records, used to state that an invocation
recorded no query outcome. -/
def RunnerEvent.isQueryRecord : RunnerEvent → Bool
  | RunnerEvent.queryRecord _ => true
  | _ => false

/-- Claim C8: when every connect attempt fails, `QueryRunner.__call__`
makes exactly 3 attempts with backoff sleeps `0.5 * 2^0` and `0.5 * 2^1`
between them, records exactly one failed-connect outcome, records no query
outcome, and returns without raising. -/
theorem connect_retry_exhaustion (co : ℕ → Bool) (qo : ℕ → QueryOutcome)
    (h : ∀ a, a < 3 → co a = false) :
    queryRunnerCall co qo =
      ([RunnerEvent.sleepEv ((1 / 2 : ℚ) * 2 ^ 0),
        RunnerEvent.sleepEv ((1 / 2 : ℚ) * 2 ^ 1),
        RunnerEvent.connectRecord false], false) ∧
    (queryRunnerCall co qo).1.count (RunnerEvent.connectRecord false) = 1 ∧
    (queryRunnerCall co qo).1.filter RunnerEvent.isQueryRecord = [] := by
  have h0 := h 0 (by omega)
  have h1 := h 1 (by omega)
  have h2 := h 2 (by omega)
  have hcall : queryRunnerCall co qo =
      ([RunnerEvent.sleepEv ((1 / 2 : ℚ) * 2 ^ 0),
        RunnerEvent.sleepEv ((1 / 2 : ℚ) * 2 ^ 1),
        RunnerEvent.connectRecord false], false) := by
    simp [queryRunnerCall, connectAttempts, h0, h1, h2]
  refine ⟨hcall, ?_, ?_⟩
  · rw [hcall]
    rfl
  · rw [hcall]
    rfl

/-- Witness for C8: the always-failing connect oracle. -/
theorem connect_retry_exhaustion_witness :
    queryRunnerCall (fun _ => false) (fun _ => QueryOutcome.ok) =
      ([RunnerEvent.sleepEv ((1 / 2 : ℚ) * 2 ^ 0),
        RunnerEvent.sleepEv ((1 / 2 : ℚ) * 2 ^ 1),
        RunnerEvent.connectRecord false], false) :=
  (connect_retry_exhaustion (fun _ => false) (fun _ => QueryOutcome.ok)
    (fun _ _ => rfl)).1

/-! ## scenarios.py: the level error tracker and the stress worker's pacing

`stress` and `stress_gentle` share a per-level mutable record
`error_tracker = {'success': 0, 'errors': 0}` incremented by the workers and
read by the monitoring loop. -/

/-- The per-level `error_tracker` dictionary. -/
structure Tracker where
  success : ℕ
  errors : ℕ

/-- The pacing sleep chosen at the end of one successful `stress_worker`
iteration: only when `total = success + errors` exceeds 100 is
`error_rate = errors / total` computed, throttling 0.5 s above 30 % errors,
0.2 s above 10 %, otherwise 0.1 s; at or below 100 outcomes the 0.1 s
default is used. -/
def stressWorkerPaceDelay (success errors : ℕ) : ℚ :=
  let total := success + errors
  if 100 < total then
    let error_rate : ℚ := (errors : ℚ) / (total : ℚ)
    if 3 / 10 < error_rate then 1 / 2
    else if 1 / 10 < error_rate then 1 / 5
    else 1 / 10
  else 1 / 10

lemma div_tier_iff (e T a b : ℕ) (hT : 0 < T) (hb : 0 < b) :
    ((a : ℚ) / (b : ℚ) < (e : ℚ) / (T : ℚ)) ↔ a * T < b * e := by
  rw [div_lt_div_iff₀ (by exact_mod_cast hb) (by exact_mod_cast hT)]
  constructor
  · intro hh
    have h2 : ((a * T : ℕ) : ℚ) < ((b * e : ℕ) : ℚ) := by push_cast; linarith
    exact_mod_cast h2
  · intro hh
    have h2 : ((a * T : ℕ) : ℚ) < ((b * e : ℕ) : ℚ) := by exact_mod_cast hh
    push_cast at h2
    linarith

/-- Claim C5: the stress worker's adaptive pacing consults the error rate
only above 100 total outcomes, choosing 0.5 s for rate > 30 %, 0.2 s for
rate > 10 % and 0.1 s otherwise, with the 0.1 s default at or below 100
outcomes; in particular `success=60, errors=50` selects the 0.5 s tier and
`success=95, errors=5` (total exactly 100) the default. The tiers are
restated by cross-multiplication, with no division. -/
theorem stress_adaptive_pacing (s e : ℕ) :
    (stressWorkerPaceDelay s e =
      if 100 < s + e then
        if 3 * (s + e) < 10 * e then (1 / 2 : ℚ)
        else if 1 * (s + e) < 10 * e then 1 / 5
        else 1 / 10
      else 1 / 10) ∧
    stressWorkerPaceDelay 60 50 = 1 / 2 ∧
    stressWorkerPaceDelay 95 5 = 1 / 10 := by
  refine ⟨?_, ?_, ?_⟩
  · dsimp only [stressWorkerPaceDelay]
    by_cases h100 : 100 < s + e
    · have hT : 0 < s + e := by omega
      have t3 : ((3 : ℚ) / (10 : ℚ) < (e : ℚ) / ((s + e : ℕ) : ℚ)) ↔
          3 * (s + e) < 10 * e := by
        rw [show (3 : ℚ) = ((3 : ℕ) : ℚ) by norm_num,
          show (10 : ℚ) = ((10 : ℕ) : ℚ) by norm_num]
        exact div_tier_iff e (s + e) 3 10 hT (by omega)
      have t1 : ((1 : ℚ) / (10 : ℚ) < (e : ℚ) / ((s + e : ℕ) : ℚ)) ↔
          1 * (s + e) < 10 * e := by
        rw [show (1 : ℚ) = ((1 : ℕ) : ℚ) by norm_num,
          show (10 : ℚ) = ((10 : ℕ) : ℚ) by norm_num]
        exact div_tier_iff e (s + e) 1 10 hT (by omega)
      simp only [if_pos h100, t3, t1]
    · simp only [if_neg h100]
  · norm_num [stressWorkerPaceDelay]
  · norm_num [stressWorkerPaceDelay]

/-! ## scenarios.py: stress and stress_gentle monitoring loops

The level loop `while current <= max_connections` is compiled into a
precomputed list of level values (`levelSeq`, with enough fuel to cover
every level) folded by an early-return recursion, so that the abort path —
the bare `return` inside the hold loop — aborts the whole run and skips
every later level. The workers' effect on the shared tracker is abstracted
as the tracker contents `samp` that the monitoring loop observes at each of
its sample points. -/

/-- The values taken by `current` in the `while current <= max_connections:
... current += step` loop, in order. `fuel` bounds the number of iterations
and is chosen large enough in every use. -/
def levelSeq : ℕ → ℕ → ℕ → ℕ → List ℕ
  | 0, _, _, _ => []
  | fuel + 1, current, stepv, maxc =>
    if current ≤ maxc then current :: levelSeq fuel (current + stepv) stepv maxc
    else []

/-- The abort test of the `stress` monitoring loop body: `if total > 0`
compute `error_rate = errors / total`, and abort when `error_rate > 0.5 and
total > 100`. -/
def stressAbortCheck (t : Tracker) : Bool :=
  let total := t.success + t.errors
  decide (0 < total) &&
    (decide ((1 / 2 : ℚ) < (t.errors : ℚ) / (total : ℚ)) && decide (100 < total))

/-- The `stress` hold loop: `for elapsed in range(step_duration_sec)` sleep
1 s, then run the abort test only when `elapsed % 10 == 0 and elapsed > 0`;
`samp elapsed` is the tracker contents the loop reads at second `elapsed`.
Returns whether the hold aborts the run. -/
def stressHoldAborts (dur : ℕ) (samp : ℕ → Tracker) : Bool :=
  (List.range dur).any fun elapsed =>
    decide (elapsed % 10 = 0) && (decide (0 < elapsed) && stressAbortCheck (samp elapsed))

/-- How a stress/gentle-stress run ended: all levels held, or the run was
aborted while holding the given level. -/
inductive StressOutcome where
  | completed
  | aborted (level : ℕ)
deriving DecidableEq

/-- Iterate the levels of a stress-style run: at each level run the hold;
an abort returns immediately (the bare `return` in the source), otherwise
the loop advances to the next level. Returns the outcome and the levels
actually entered. -/
def runStressLevels (holdAborts : ℕ → (ℕ → Tracker) → Bool) (dur : ℕ)
    (samp : ℕ → ℕ → Tracker) : List ℕ → StressOutcome × List ℕ
  | [] => (StressOutcome.completed, [])
  | current :: rest =>
    if holdAborts dur (samp current) then (StressOutcome.aborted current, [current])
    else
      let r := runStressLevels holdAborts dur samp rest
      (r.1, current :: r.2)

/-- The `stress` scenario's monitoring behaviour for
`(start, step, max, step_duration)`. -/
def stressRun (fuel start stepv maxc dur : ℕ) (samp : ℕ → ℕ → Tracker) :
    StressOutcome × List ℕ :=
  runStressLevels stressHoldAborts dur samp (levelSeq fuel start stepv maxc)

/-- The abort test of the `stress_gentle` monitoring loop body: `if total >
0` compute the rate, and abort when `error_rate > 0.4 and total > 50`. -/
def gentleAbortCheck (t : Tracker) : Bool :=
  let total := t.success + t.errors
  decide (0 < total) &&
    (decide ((2 / 5 : ℚ) < (t.errors : ℚ) / (total : ℚ)) && decide (50 < total))

/-- The `stress_gentle` hold loop: `for elapsed in range(0, step_duration_sec,
10)` sleep up to 10 s, then run the abort test at every iteration; `samp k`
is the tracker contents read at the k-th sample (10 k seconds into the
hold). `range(0, dur, 10)` has `(dur + 9) / 10` elements. -/
def gentleHoldAborts (dur : ℕ) (samp : ℕ → Tracker) : Bool :=
  (List.range ((dur + 9) / 10)).any fun k => gentleAbortCheck (samp k)

/-- The `stress_gentle` scenario's monitoring behaviour. -/
def gentleRun (fuel start stepv maxc dur : ℕ) (samp : ℕ → ℕ → Tracker) :
    StressOutcome × List ℕ :=
  runStressLevels gentleHoldAborts dur samp (levelSeq fuel start stepv maxc)

/-- An always-failing workload as the stress monitor observes it: no
successes, errors well past the 100-sample threshold at every sample
point of every level. -/
def stressFailTrace : ℕ → ℕ → Tracker := fun _ _ => ⟨0, 200⟩

/-- A healthy workload as the stress monitor observes it: only successes. -/
def stressOkTrace : ℕ → ℕ → Tracker := fun _ _ => ⟨200, 0⟩

/-- An always-failing workload as the gentle monitor observes it: errors
already past the 50-sample threshold at the first sample. -/
def gentleFailTrace : ℕ → ℕ → Tracker := fun _ k => ⟨0, 60 + 10 * k⟩

/-- A healthy workload as the gentle monitor observes it. -/
def gentleOkTrace : ℕ → ℕ → Tracker := fun _ _ => ⟨100, 0⟩

lemma stressAbortCheck_failTrace : stressAbortCheck ⟨0, 200⟩ = true := by
  norm_num [stressAbortCheck]

lemma stressAbortCheck_okTrace : stressAbortCheck ⟨200, 0⟩ = false := by
  norm_num [stressAbortCheck]

lemma stressHoldAborts_five (samp : ℕ → Tracker) : stressHoldAborts 5 samp = false := by
  unfold stressHoldAborts
  refine List.any_eq_false.2 ?_
  intro x hx
  have hx5 : x < 5 := List.mem_range.1 hx
  interval_cases x <;> simp

lemma stressHoldAborts_failTrace15 :
    stressHoldAborts 15 (stressFailTrace 100) = true := by
  unfold stressHoldAborts
  refine List.any_eq_true.2 ⟨10, ?_, ?_⟩
  · decide
  · simp [stressFailTrace, stressAbortCheck_failTrace]

lemma stressHoldAborts_okTrace (dur lvl : ℕ) :
    stressHoldAborts dur (stressOkTrace lvl) = false := by
  unfold stressHoldAborts
  refine List.any_eq_false.2 ?_
  intro x _
  simp [stressOkTrace, stressAbortCheck_okTrace]

lemma runStressLevels_aborted (holdAborts : ℕ → (ℕ → Tracker) → Bool) (dur : ℕ)
    (samp : ℕ → ℕ → Tracker) :
    ∀ (levels : List ℕ) (L : ℕ),
      (runStressLevels holdAborts dur samp levels).1 = StressOutcome.aborted L →
      (runStressLevels holdAborts dur samp levels).2.getLast? = some L := by
  intro levels
  induction levels with
  | nil =>
    intro L h
    exact absurd h (by simp [runStressLevels])
  | cons c rest ih =>
    intro L h
    cases hc : holdAborts dur (samp c) with
    | true =>
      simp only [runStressLevels, hc, if_pos] at h ⊢
      simp only [StressOutcome.aborted.injEq] at h
      simp [h]
    | false =>
      simp only [runStressLevels, hc, Bool.false_eq_true, if_false] at h ⊢
      have h2 := ih L h
      cases hr : (runStressLevels holdAborts dur samp rest).2 with
      | nil => rw [hr] at h2; exact absurd h2 (by simp)
      | cons b l =>
        rw [hr] at h2
        rw [List.getLast?_cons_cons]
        exact h2

lemma stressRun_fail15 :
    stressRun 4 100 100 300 15 stressFailTrace =
      (StressOutcome.aborted 100, [100]) := by
  have hseq : levelSeq 4 100 100 300 = [100, 200, 300] := by decide
  unfold stressRun
  rw [hseq]
  simp [runStressLevels, stressHoldAborts_failTrace15]

lemma stressRun_ok15 :
    stressRun 4 100 100 300 15 stressOkTrace =
      (StressOutcome.completed, [100, 200, 300]) := by
  have hseq : levelSeq 4 100 100 300 = [100, 200, 300] := by decide
  unfold stressRun
  rw [hseq]
  simp [runStressLevels, stressHoldAborts_okTrace]

/-- Claim C1 (amended): the stress monitoring loop samples the tracker only
at `elapsed = 10, 20, ...` seconds into a hold, and whenever a sample sees
`error_rate > 0.5` with `success + errors > 100` the entire run aborts
immediately — an early return, so the aborting level is the last one ever
entered. But with `step_duration = 5` the hold has no sample point at all,
so for `start=100, step=100, max=300, step_duration=5` the run never aborts
regardless of the workload and completes all levels 100, 200, 300; the
claimed first-level abort instead requires a hold long enough to reach the
`elapsed = 10` sample, e.g. `step_duration = 15`. -/
theorem stress_abort_monitoring :
    (∀ (dur : ℕ) (samp : ℕ → Tracker),
        stressHoldAborts dur samp = true ↔
          ∃ elapsed, elapsed < dur ∧ elapsed % 10 = 0 ∧ 0 < elapsed ∧
            stressAbortCheck (samp elapsed) = true) ∧
    (∀ samp : ℕ → Tracker, stressHoldAborts 5 samp = false) ∧
    (∀ (fuel start stepv maxc dur : ℕ) (samp : ℕ → ℕ → Tracker) (L : ℕ),
        (stressRun fuel start stepv maxc dur samp).1 = StressOutcome.aborted L →
        (stressRun fuel start stepv maxc dur samp).2.getLast? = some L) ∧
    (∀ samp : ℕ → ℕ → Tracker,
        stressRun 4 100 100 300 5 samp = (StressOutcome.completed, [100, 200, 300])) ∧
    stressRun 4 100 100 300 15 stressFailTrace = (StressOutcome.aborted 100, [100]) := by
  refine ⟨?_, stressHoldAborts_five, ?_, ?_, stressRun_fail15⟩
  · intro dur samp
    unfold stressHoldAborts
    rw [List.any_eq_true]
    constructor
    · rintro ⟨x, hx, hpx⟩
      simp only [Bool.and_eq_true, decide_eq_true_eq] at hpx
      exact ⟨x, List.mem_range.1 hx, hpx.1, hpx.2.1, hpx.2.2⟩
    · rintro ⟨x, hx, h10, h0, hc⟩
      exact ⟨x, List.mem_range.2 hx, by
        simp only [Bool.and_eq_true, decide_eq_true_eq]
        exact ⟨h10, h0, hc⟩⟩
  · intro fuel start stepv maxc dur samp L
    exact runStressLevels_aborted stressHoldAborts dur samp _ L
  · intro samp
    have hseq : levelSeq 4 100 100 300 = [100, 200, 300] := by decide
    unfold stressRun
    rw [hseq]
    simp [runStressLevels, stressHoldAborts_five]

/-- Witness for C1: the hard stop at the concrete aborting run — level 100
is the last level the aborted run ever entered. -/
theorem stress_abort_monitoring_witness :
    (stressRun 4 100 100 300 15 stressFailTrace).2.getLast? = some 100 :=
  stress_abort_monitoring.2.2.1 4 100 100 300 15 stressFailTrace 100
    (by rw [stress_abort_monitoring.2.2.2.2])

/-- Claim C1 counterexample: at the claim's own concrete input
(`start=100, step=100, max=300, step_duration=5`, always-failing workload)
the run does NOT abort at the first level: the monitoring condition
`elapsed % 10 == 0 and elapsed > 0` never holds during a 5-second hold, so
the run completes all three levels and reaches level 300. -/
theorem stress_short_hold_cex :
    stressRun 4 100 100 300 5 stressFailTrace =
      (StressOutcome.completed, [100, 200, 300]) ∧
    (stressRun 4 100 100 300 5 stressFailTrace).1 ≠ StressOutcome.aborted 100 := by
  decide

/-! ## scenarios.py: the value returned to the caller

Both `stress` and `stress_gentle` are annotated `-> None`; the abort path is
a bare `return` and normal completion falls off the end of the function, so
the caller receives `None` either way. -/

/-- The Python return value for each way a stress-style run can end: a bare
`return` on the abort path and falling off the end both produce `None`,
modelled as the unit value. -/
def pyReturnValue : StressOutcome → Unit
  | StressOutcome.completed => ()
  | StressOutcome.aborted _ => ()

/-- What a call to `stress(...)` returns to its caller. -/
def stressPyCall (fuel start stepv maxc dur : ℕ) (samp : ℕ → ℕ → Tracker) : Unit :=
  pyReturnValue (stressRun fuel start stepv maxc dur samp).1

/-- What a call to `stress_gentle(...)` returns to its caller. -/
def gentlePyCall (fuel start stepv maxc dur : ℕ) (samp : ℕ → ℕ → Tracker) : Unit :=
  pyReturnValue (gentleRun fuel start stepv maxc dur samp).1

lemma gentleAbortCheck_failTrace : gentleAbortCheck ⟨0, 60⟩ = true := by
  norm_num [gentleAbortCheck]

lemma gentleAbortCheck_okTrace : gentleAbortCheck ⟨100, 0⟩ = false := by
  norm_num [gentleAbortCheck]

lemma gentleHoldAborts_failTrace20 :
    gentleHoldAborts 20 (gentleFailTrace 50) = true := by
  unfold gentleHoldAborts
  refine List.any_eq_true.2 ⟨0, ?_, ?_⟩
  · decide
  · show gentleAbortCheck (gentleFailTrace 50 0) = true
    have h : gentleFailTrace 50 0 = ⟨0, 60⟩ := by
      unfold gentleFailTrace
      norm_num
    rw [h]
    exact gentleAbortCheck_failTrace

lemma gentleHoldAborts_okTrace (dur lvl : ℕ) :
    gentleHoldAborts dur (gentleOkTrace lvl) = false := by
  unfold gentleHoldAborts
  refine List.any_eq_false.2 ?_
  intro x _
  simp [gentleOkTrace, gentleAbortCheck_okTrace]

lemma gentleRun_fail20 :
    gentleRun 4 50 50 150 20 gentleFailTrace = (StressOutcome.aborted 50, [50]) := by
  have hseq : levelSeq 4 50 50 150 = [50, 100, 150] := by decide
  unfold gentleRun
  rw [hseq]
  simp [runStressLevels, gentleHoldAborts_failTrace20]

lemma gentleRun_ok20 :
    gentleRun 4 50 50 150 20 gentleOkTrace =
      (StressOutcome.completed, [50, 100, 150]) := by
  have hseq : levelSeq 4 50 50 150 = [50, 100, 150] := by decide
  unfold gentleRun
  rw [hseq]
  simp [runStressLevels, gentleHoldAborts_okTrace]

/-- Claim C4 counterexample: at concrete inputs where the instrumented model
shows one run aborting (level 100 / level 50) and the other completing
normally, the values `stress` and `stress_gentle` return to their caller are
identical (`None` both times) — the abort is not observable as a distinct
returned outcome. -/
theorem abort_return_value_cex :
    (stressRun 4 100 100 300 15 stressFailTrace).1 = StressOutcome.aborted 100 ∧
    (stressRun 4 100 100 300 15 stressOkTrace).1 = StressOutcome.completed ∧
    stressPyCall 4 100 100 300 15 stressFailTrace =
      stressPyCall 4 100 100 300 15 stressOkTrace ∧
    (gentleRun 4 50 50 150 20 gentleFailTrace).1 = StressOutcome.aborted 50 ∧
    (gentleRun 4 50 50 150 20 gentleOkTrace).1 = StressOutcome.completed ∧
    gentlePyCall 4 50 50 150 20 gentleFailTrace =
      gentlePyCall 4 50 50 150 20 gentleOkTrace := by
  refine ⟨?_, ?_, rfl, ?_, ?_, rfl⟩
  · rw [stressRun_fail15]
  · rw [stressRun_ok15]
  · rw [gentleRun_fail20]
  · rw [gentleRun_ok20]

/-- Claim C4 (amended): the abort triggered by the error-rate threshold in
`stress`/`stress_gentle` is NOT observable by the caller as a distinguished
returned value: both functions return `None` on every path (the abort path
is a bare `return`), so the value returned on the abort path equals the one
returned on normal completion for any two runs whatsoever; the abort is
signalled only through printed log lines. -/
theorem abort_return_always_none (fuel start stepv maxc dur : ℕ)
    (samp : ℕ → ℕ → Tracker) (fuel2 start2 stepv2 maxc2 dur2 : ℕ)
    (samp2 : ℕ → ℕ → Tracker) :
    stressPyCall fuel start stepv maxc dur samp = () ∧
    gentlePyCall fuel start stepv maxc dur samp = () ∧
    stressPyCall fuel start stepv maxc dur samp =
      stressPyCall fuel2 start2 stepv2 maxc2 dur2 samp2 ∧
    gentlePyCall fuel start stepv maxc dur samp =
      gentlePyCall fuel2 start2 stepv2 maxc2 dur2 samp2 :=
  ⟨rfl, rfl, rfl, rfl⟩

/-- Claim C6: `stress_gentle` samples the tracker every 10 s of the hold and
aborts exactly when `error_rate > 0.4` and `success + errors > 50` (the
`total > 0` guard is subsumed); with an always-failing workload the check
fires as soon as `errors` exceeds 50 and never while `success + errors ≤
50`; concretely, for `start=50, step=50, max=150` with errors past 50 at
the first sample, the run aborts at level 50. -/
theorem gentle_abort_threshold :
    (∀ s e : ℕ, gentleAbortCheck ⟨s, e⟩ = true ↔
        ((2 / 5 : ℚ) < (e : ℚ) / ((s + e : ℕ) : ℚ) ∧ 50 < s + e)) ∧
    (∀ (dur : ℕ) (samp : ℕ → Tracker),
        gentleHoldAborts dur samp = true ↔
          ∃ k, 10 * k < dur ∧ gentleAbortCheck (samp k) = true) ∧
    (∀ e : ℕ, 50 < e → gentleAbortCheck ⟨0, e⟩ = true) ∧
    (∀ t : Tracker, t.success + t.errors ≤ 50 → gentleAbortCheck t = false) ∧
    gentleRun 4 50 50 150 20 gentleFailTrace = (StressOutcome.aborted 50, [50]) := by
  refine ⟨?_, ?_, ?_, ?_, gentleRun_fail20⟩
  · intro s e
    unfold gentleAbortCheck
    simp only [Bool.and_eq_true, decide_eq_true_eq]
    constructor
    · rintro ⟨_, h2, h3⟩
      exact ⟨h2, h3⟩
    · rintro ⟨h2, h3⟩
      exact ⟨by omega, h2, h3⟩
  · intro dur samp
    unfold gentleHoldAborts
    rw [List.any_eq_true]
    constructor
    · rintro ⟨k, hk, hck⟩
      have hk2 := List.mem_range.1 hk
      exact ⟨k, by omega, hck⟩
    · rintro ⟨k, hk, hck⟩
      exact ⟨k, List.mem_range.2 (by omega), hck⟩
  · intro e he
    unfold gentleAbortCheck
    simp only [Bool.and_eq_true, decide_eq_true_eq]
    refine ⟨by omega, ?_, by omega⟩
    have hz : (0 : ℕ) + e = e := by omega
    rw [hz]
    have hne : ((e : ℕ) : ℚ) ≠ 0 := by
      exact_mod_cast (by omega : e ≠ 0)
    rw [div_self hne]
    norm_num
  · intro t ht
    unfold gentleAbortCheck
    have h50 : ¬(50 < t.success + t.errors) := by omega
    simp [h50]

/-- Witness for C6: the threshold fires at `success=0, errors=60` and stays
silent at `success=25, errors=25` (total exactly 50). -/
theorem gentle_abort_threshold_witness :
    gentleAbortCheck ⟨0, 60⟩ = true ∧ gentleAbortCheck ⟨25, 25⟩ = false :=
  ⟨gentle_abort_threshold.2.2.1 60 (by decide),
    gentle_abort_threshold.2.2.2.1 ⟨25, 25⟩ (by decide)⟩

/-! ## scenarios.py: worker-task lifecycle accounting

Each scenario owns a set of `asyncio` task handles. The models below track,
along the scenario's control flow, how many spawned tasks are never joined
(neither completed nor cancelled-and-awaited) by the time the scenario
function returns. A task is joined by an `await asyncio.gather(...)` over
it; `gather(*tasks)` WITHOUT `return_exceptions` re-raises the first stored
worker exception and leaves the remaining pending tasks running, while
`gather(..., return_exceptions=True)` waits for every task. Worker bodies
re-raise `CancelledError` at every suspension point (`except
asyncio.CancelledError: raise`), so a cancelled-and-gathered task is always
joined. Timing is abstracted: a finite worker invocation is taken to have
finished by the time its join is awaited, so the unjoined count is the
count of workers that outlive the scenario forever. -/

/-- Behaviour of one worker invocation: it completes, raises an exception,
or never completes on its own. -/
inductive WBeh where
  | ok
  | raises
  | never
deriving DecidableEq

/-- How a scenario call ends: returns normally, returns by propagating a
worker exception, or never returns (a join that waits forever). -/
inductive ScenRet where
  | normal
  | excep
  | hang
deriving DecidableEq

/-- The worker indices `ramp_up` spawns: `current = start` while
`current <= end_connections`, one spawn per iteration. -/
def rampUpIndices (s e : ℕ) : List ℕ := List.range' s (e + 1 - s)

/-- Task accounting for `ramp_up`: after the spawn loop the function runs
`await asyncio.gather(*tasks)` with no `return_exceptions` and no
`try/finally`. If some worker raised, the gather re-raises it and the
scenario returns via that exception with every never-completing worker
still live (not cancelled); otherwise the gather waits for all workers —
forever if one never completes. Returns how the call ends and how many
spawned workers are never joined. -/
def rampUpModel (beh : ℕ → WBeh) (s e : ℕ) : ScenRet × ℕ :=
  let idxs := rampUpIndices s e
  if idxs.any (fun i => beh i == WBeh.raises) then
    (ScenRet.excep, idxs.countP (fun i => beh i == WBeh.never))
  else if idxs.any (fun i => beh i == WBeh.never) then (ScenRet.hang, 0)
  else (ScenRet.normal, 0)

/-- Task accounting for `sustained`: the `finally` block sets the stop event
and runs `gather(*tasks, return_exceptions=True)`, which waits for every
task (worker exceptions become results); a worker that never completes its
single `await worker(idx)` blocks that join forever, so the function either
hangs or returns with every task joined. -/
def sustainedModel (beh : ℕ → WBeh) (n : ℕ) : ScenRet × ℕ :=
  if (List.range n).any (fun i => beh i == WBeh.never) then (ScenRet.hang, 0)
  else (ScenRet.normal, 0)

/-- Task accounting for `spike`: `base` tasks are spawned up front; each of
the `cycles` iterations spawns `spike` extra tasks and then cancels and
gathers (with `return_exceptions=True`) exactly those; the `finally` block
cancels and gathers the base tasks. `spike_worker` re-raises
`CancelledError`, so every cancel-and-gather joins its tasks. The second
component is the live-task ledger after the final join. -/
def spikeModel (base spikeN cycles : ℕ) : ScenRet × ℕ :=
  let liveAfterCycles := (List.range cycles).foldl (fun live _ => live + spikeN - spikeN) base
  (ScenRet.normal, liveAfterCycles - base)

/-- Unjoined-task ledger of the stress/gentle level loop body, over the
level list: entering a level first cancels and gathers the previous level's
tasks (`live - live`), then spawns `current` new workers in rate-limited
batches (`live + current`); the abort path returns out of the `try` body
with the level's tasks still unjoined. Parameterized by the hold test
(`stress` and `stress_gentle` differ only there). -/
def stressTaskLedger (holdAborts : ℕ → (ℕ → Tracker) → Bool) (dur : ℕ)
    (samp : ℕ → ℕ → Tracker) : List ℕ → ℕ → ℕ
  | [], live => live
  | current :: rest, live =>
    let live1 := live - live
    let live2 := live1 + current
    if holdAborts dur (samp current) then live2
    else stressTaskLedger holdAborts dur samp rest live2

/-- Workers still unjoined when `stress`/`stress_gentle` returns: whatever
the `try` body leaves live, the `finally` block cancels and gathers
(`return_exceptions=True`) every remaining task. -/
def stressLiveAfterReturn (holdAborts : ℕ → (ℕ → Tracker) → Bool)
    (fuel start stepv maxc dur : ℕ) (samp : ℕ → ℕ → Tracker) : ℕ :=
  let atExit := stressTaskLedger holdAborts dur samp (levelSeq fuel start stepv maxc) 0
  atExit - atExit

lemma spike_foldl (s b n : ℕ) :
    (List.range n).foldl (fun live _ => live + s - s) b = b := by
  induction n with
  | zero => rfl
  | succ n ih =>
    rw [List.range_succ, List.foldl_append, ih]
    simp

/-- Claim C2 (amended): every spawned worker is completed or
cancelled-and-awaited by the time the scenario returns — zero unjoined
workers — for `sustained`, `spike`, `stress` and `stress_gentle` with any
workload, and for `ramp_up` whenever no worker invocation raises; with a
raising workload `ramp_up`'s final bare `gather` can instead propagate the
exception while other workers are still live (see the counterexample). -/
theorem scenario_worker_cleanup :
    (∀ (beh : ℕ → WBeh) (s e : ℕ),
        (∀ i ∈ rampUpIndices s e, beh i ≠ WBeh.raises) →
        (rampUpModel beh s e).2 = 0) ∧
    (∀ (beh : ℕ → WBeh) (n : ℕ), (sustainedModel beh n).2 = 0) ∧
    (∀ base spikeN cycles : ℕ, spikeModel base spikeN cycles = (ScenRet.normal, 0)) ∧
    (∀ (fuel start stepv maxc dur : ℕ) (samp : ℕ → ℕ → Tracker),
        stressLiveAfterReturn stressHoldAborts fuel start stepv maxc dur samp = 0) ∧
    (∀ (fuel start stepv maxc dur : ℕ) (samp : ℕ → ℕ → Tracker),
        stressLiveAfterReturn gentleHoldAborts fuel start stepv maxc dur samp = 0) := by
  refine ⟨?_, ?_, ?_, ?_, ?_⟩
  · intro beh s e h
    unfold rampUpModel
    have hany : (rampUpIndices s e).any (fun i => beh i == WBeh.raises) = false := by
      refine List.any_eq_false.2 ?_
      intro i hi
      simpa using h i hi
    simp only [hany, Bool.false_eq_true, if_false]
    by_cases h2 : (rampUpIndices s e).any (fun i => beh i == WBeh.never) = true
    · simp [h2]
    · simp [h2]
  · intro beh n
    unfold sustainedModel
    by_cases h2 : (List.range n).any (fun i => beh i == WBeh.never) = true
    · simp [h2]
    · simp [h2]
  · intro base spikeN cycles
    unfold spikeModel
    rw [spike_foldl]
    simp
  · intro fuel start stepv maxc dur samp
    exact Nat.sub_self _
  · intro fuel start stepv maxc dur samp
    exact Nat.sub_self _

/-- Witness for C2: a 3-worker `ramp_up` whose workload never raises has
zero unjoined workers at return. -/
theorem scenario_worker_cleanup_witness :
    (∀ i ∈ rampUpIndices 1 3, (fun _ => WBeh.ok) i ≠ WBeh.raises) ∧
    (rampUpModel (fun _ => WBeh.ok) 1 3).2 = 0 :=
  ⟨by decide, scenario_worker_cleanup.1 (fun _ => WBeh.ok) 1 3 (by decide)⟩

/-- The workload of the C2 counterexample: the invocation at index 1 raises
immediately, the one at index 2 never completes. -/
def rampCexBeh : ℕ → WBeh := fun i => if i = 1 then WBeh.raises else WBeh.never

/-- Claim C2 counterexample: with `start=1, end=2` and a workload whose
first invocation raises while the second never completes, `ramp_up`'s final
`await asyncio.gather(*tasks)` (no `return_exceptions`, no `try/finally`)
re-raises the stored exception without cancelling the still-pending worker,
so the scenario returns (by propagating the exception) with one worker
instance live — the live count is not 0. -/
theorem ramp_up_cleanup_cex :
    rampUpModel rampCexBeh 1 2 = (ScenRet.excep, 1) ∧
    (rampUpModel rampCexBeh 1 2).2 ≠ 0 := by decide

/-! ## scenarios.py: ramp_up spawn schedule -/

/-- The spawn schedule of `ramp_up(start, end, duration, worker)`:
`steps = max(1, end - start)`, `delay = duration / steps`, and the loop
spawns `worker(current)` for `current = start .. end`, sleeping `delay`
after each spawn, so index `c` is spawned at time `(c - start) * delay`. -/
def rampUpSpawnSchedule (s e : ℕ) (dur : ℚ) : List (ℚ × ℕ) :=
  let steps : ℕ := max 1 (e - s)
  let delay : ℚ := dur / (steps : ℚ)
  (rampUpIndices s e).map fun c => (((c - s : ℕ) : ℚ) * delay, c)

/-- An observable task-lifecycle action of `ramp_up`: a `create_task` call
or a `cancel` call on a handle. -/
inductive RampEvent where
  | spawn (time : ℚ) (idx : ℕ)
  | cancel (idx : ℕ)

/-- Recognizer for cancel events. -/
def RampEvent.isCancel : RampEvent → Bool
  | RampEvent.cancel _ => true
  | _ => false

/-- The full task-lifecycle trace of `ramp_up`: the body contains one
`asyncio.create_task` per loop iteration and no `cancel` call on any
handle, so the trace consists of the spawns alone. -/
def rampUpTrace (s e : ℕ) (dur : ℚ) : List RampEvent :=
  (rampUpSpawnSchedule s e dur).map fun p => RampEvent.spawn p.1 p.2

/-- Claim C9: for `end >= start`, `ramp_up` spawns exactly one worker per
integer index from `start` to `end` inclusive — `end - start + 1` workers —
with consecutive spawns `duration / max(1, end - start)` apart (the k-th
spawn happens at time `k * delay` and carries index `start + k`), it never
cancels any spawned worker, and for `start=1, end=5, duration=4` this is
exactly 5 workers at 1-second intervals. -/
theorem ramp_up_spawn_schedule (s e : ℕ) (dur : ℚ) (h : s ≤ e) :
    (rampUpSpawnSchedule s e dur).length = e - s + 1 ∧
    rampUpSpawnSchedule s e dur =
      (List.range (e - s + 1)).map
        (fun k : ℕ => ((k : ℚ) * (dur / ((max 1 (e - s) : ℕ) : ℚ)), s + k)) ∧
    (rampUpTrace s e dur).all (fun ev => !ev.isCancel) = true ∧
    rampUpSpawnSchedule 1 5 4 = [(0, 1), (1, 2), (2, 3), (3, 4), (4, 5)] := by
  have hmap : rampUpSpawnSchedule s e dur =
      (List.range (e - s + 1)).map
        (fun k : ℕ => ((k : ℚ) * (dur / ((max 1 (e - s) : ℕ) : ℚ)), s + k)) := by
    dsimp only [rampUpSpawnSchedule]
    unfold rampUpIndices
    have hn : e + 1 - s = e - s + 1 := by omega
    rw [hn, List.range'_eq_map_range, List.map_map]
    refine List.map_congr_left ?_
    intro k _
    show ((((s + k) - s : ℕ) : ℚ) * _, s + k) = _
    rw [Nat.add_sub_cancel_left]
  refine ⟨?_, hmap, ?_, ?_⟩
  · rw [hmap, List.length_map, List.length_range]
  · rw [List.all_eq_true]
    intro ev hev
    obtain ⟨p, _, hp⟩ := List.mem_map.1 hev
    rw [← hp]
    rfl
  · dsimp only [rampUpSpawnSchedule]
    rw [show rampUpIndices 1 5 = [1, 2, 3, 4, 5] by decide]
    norm_num

/-- Witness for C9 at `start=1, end=5, duration=4`. -/
theorem ramp_up_spawn_schedule_witness :
    rampUpSpawnSchedule 1 5 4 = [(0, 1), (1, 2), (2, 3), (3, 4), (4, 5)] :=
  (ramp_up_spawn_schedule 1 5 4 (by decide)).2.2.2
